import Mathlib

deriving instance DecidableEq for Except

/-!
Verification development for the starknet-privacy-toolkit shielded-account
client (`src/tongo-service.ts`).  The TypeScript source is shallowly embedded:
strings are Lean `String`s (lists of `Char`), JavaScript `bigint` values are
`Int` (or `Nat` for the non-negative address/key domain), and each fallible
code path returns an `Except`/`Option` value.  Collaborator calls made by the
orchestrator (exchange-rate query, proof builder, wallet-balance read,
transaction execution, ledger state query) are recorded in an explicit event
trace so that ordering claims ("checked before any collaborator call") become
statements about that trace.
-/

namespace Tongo

/-! ### Character-level primitives (hex / decimal digits)

These model the digit handling done in the source through JavaScript's
`BigInt(string)` and `BigInt.prototype.toString(16)` / `toString()`.
-/

/-- Is `c` an ASCII decimal digit? -/
def isDecDigit (c : Char) : Bool :=
  decide (48 ≤ c.toNat ∧ c.toNat ≤ 57)

/-- Is `c` an ASCII hex digit (either case)? -/
def isHexDigit (c : Char) : Bool :=
  decide ((48 ≤ c.toNat ∧ c.toNat ≤ 57) ∨ (97 ≤ c.toNat ∧ c.toNat ≤ 102)
    ∨ (65 ≤ c.toNat ∧ c.toNat ≤ 70))

/-- Is `c` a lower-case hex digit (`0`-`9`, `a`-`f`)? -/
def isLowerHexDigit (c : Char) : Bool :=
  decide ((48 ≤ c.toNat ∧ c.toNat ≤ 57) ∨ (97 ≤ c.toNat ∧ c.toNat ≤ 102))

/-- Numeric value of a (hex or decimal) digit character.  Garbage for
non-digit characters; always guarded by `isHexDigit`/`isDecDigit`. -/
def digitVal (c : Char) : ℕ :=
  if 48 ≤ c.toNat ∧ c.toNat ≤ 57 then c.toNat - 48
  else if 97 ≤ c.toNat ∧ c.toNat ≤ 102 then c.toNat - 87
  else c.toNat - 55

/-- The lower-case digit character for a value `< 16`, as produced by
JavaScript's `toString(16)` / `toString()`. -/
def digitChar (d : ℕ) : Char :=
  if d < 10 then Char.ofNat (48 + d) else Char.ofNat (87 + d)

theorem digitVal_lt_of_isHexDigit {c : Char} (h : isHexDigit c = true) :
    digitVal c < 16 := by
  simp only [isHexDigit, decide_eq_true_eq] at h
  unfold digitVal
  split
  · omega
  · split
    · omega
    · omega

theorem digitVal_lt_of_isDecDigit {c : Char} (h : isDecDigit c = true) :
    digitVal c < 10 := by
  simp only [isDecDigit, decide_eq_true_eq] at h
  unfold digitVal
  split
  · omega
  · omega

theorem digitChar_digitVal {c : Char} (h : isLowerHexDigit c = true) :
    digitChar (digitVal c) = c := by
  simp only [isLowerHexDigit, decide_eq_true_eq] at h
  unfold digitChar digitVal
  rcases h with h | h
  · have h48 : 48 ≤ c.toNat ∧ c.toNat ≤ 57 := h
    rw [if_pos h48, if_pos (by omega)]
    have : 48 + (c.toNat - 48) = c.toNat := by omega
    rw [this, Char.ofNat_toNat]
  · have h97 : ¬ (48 ≤ c.toNat ∧ c.toNat ≤ 57) := by omega
    rw [if_neg h97, if_pos (by omega : 97 ≤ c.toNat ∧ c.toNat ≤ 102),
      if_neg (by omega : ¬ (c.toNat - 87) < 10)]
    have : 87 + (c.toNat - 87) = c.toNat := by omega
    rw [this, Char.ofNat_toNat]

theorem digitVal_digitChar {d : ℕ} (h : d < 16) :
    digitVal (digitChar d) = d := by
  interval_cases d <;> decide

theorem isLowerHexDigit_digitChar {d : ℕ} (h : d < 16) :
    isLowerHexDigit (digitChar d) = true := by
  interval_cases d <;> decide

theorem isDecDigit_digitChar {d : ℕ} (h : d < 10) :
    isDecDigit (digitChar d) = true := by
  interval_cases d <;> decide

theorem isHexDigit_of_isLowerHexDigit {c : Char} (h : isLowerHexDigit c = true) :
    isHexDigit c = true := by
  simp only [isLowerHexDigit, decide_eq_true_eq] at h
  simp only [isHexDigit, decide_eq_true_eq]
  tauto

theorem isHexDigit_of_isDecDigit {c : Char} (h : isDecDigit c = true) :
    isHexDigit c = true := by
  simp only [isDecDigit, decide_eq_true_eq] at h
  simp only [isHexDigit, decide_eq_true_eq]
  tauto

/-! ### Base-16 and base-10 digit strings

Least-significant-digit-first (`LE`) helpers, then most-significant-first
renderings matching JavaScript's `toString(16)` / `toString()` output
(lower case, no leading zeros, `0` rendered as `"0"`).
-/

/-- Value of a least-significant-first list of hex digits. -/
def ofHexLE : List Char → ℕ
  | [] => 0
  | c :: r => digitVal c + 16 * ofHexLE r

/-- Value of a least-significant-first list of decimal digits. -/
def ofDecLE : List Char → ℕ
  | [] => 0
  | c :: r => digitVal c + 10 * ofDecLE r

/-- Digit expansion in base `b`, least significant digit first, with
explicit fuel so that the definition is structurally recursive (and hence
evaluates inside `decide`/`rfl` proofs). -/
def toBaseAux (b : ℕ) : ℕ → ℕ → List Char
  | 0, _ => []
  | fuel + 1, n => if n < b then [digitChar n] else digitChar (n % b) :: toBaseAux b fuel (n / b)

/-- Fuel does not matter as long as it exceeds the value. -/
theorem toBaseAux_fuel (b : ℕ) (hb : 2 ≤ b) :
    ∀ n f1 f2 : ℕ, n < f1 → n < f2 → toBaseAux b f1 n = toBaseAux b f2 n := by
  intro n
  induction n using Nat.strong_induction_on with
  | _ n ih =>
    intro f1 f2 h1 h2
    match f1, f2 with
    | g1 + 1, g2 + 1 =>
      rw [toBaseAux, toBaseAux]
      by_cases hn : n < b
      · rw [if_pos hn, if_pos hn]
      · rw [if_neg hn, if_neg hn]
        have hdiv : n / b < n := Nat.div_lt_self (by omega) (by omega)
        rw [ih (n / b) hdiv (g1) (g2) (by omega) (by omega)]

/-- Minimal hex rendering of `n`, least significant digit first. -/
def toHexMinLE (n : ℕ) : List Char := toBaseAux 16 (n + 1) n

/-- Minimal decimal rendering of `n`, least significant digit first. -/
def toDecMinLE (n : ℕ) : List Char := toBaseAux 10 (n + 1) n

theorem toHexMinLE_of_lt {n : ℕ} (h : n < 16) : toHexMinLE n = [digitChar n] := by
  rw [toHexMinLE, toBaseAux, if_pos h]

theorem toHexMinLE_of_ge {n : ℕ} (h : ¬ n < 16) :
    toHexMinLE n = digitChar (n % 16) :: toHexMinLE (n / 16) := by
  rw [toHexMinLE, toBaseAux, if_neg h, toHexMinLE]
  have hdiv : n / 16 < n := Nat.div_lt_self (by omega) (by omega)
  rw [toBaseAux_fuel 16 (by omega) (n / 16) n (n / 16 + 1) hdiv (by omega)]

theorem toDecMinLE_of_lt {n : ℕ} (h : n < 10) : toDecMinLE n = [digitChar n] := by
  rw [toDecMinLE, toBaseAux, if_pos h]

theorem toDecMinLE_of_ge {n : ℕ} (h : ¬ n < 10) :
    toDecMinLE n = digitChar (n % 10) :: toDecMinLE (n / 10) := by
  rw [toDecMinLE, toBaseAux, if_neg h, toDecMinLE]
  have hdiv : n / 10 < n := Nat.div_lt_self (by omega) (by omega)
  rw [toBaseAux_fuel 10 (by omega) (n / 10) n (n / 10 + 1) hdiv (by omega)]

/-- `n.toString(16)` of a bigint `n`: most-significant-first hex digits. -/
def toHexStrL (n : ℕ) : List Char := (toHexMinLE n).reverse

/-- `n.toString()` of a bigint `n`: most-significant-first decimal digits. -/
def toDecStrL (n : ℕ) : List Char := (toDecMinLE n).reverse

/-- Fixed-width hex rendering, least significant digit first, `k` digits. -/
def toHexFixedLE : ℕ → ℕ → List Char
  | 0, _ => []
  | k + 1, n => digitChar (n % 16) :: toHexFixedLE k (n / 16)

theorem ofHexLE_toHexMinLE (n : ℕ) : ofHexLE (toHexMinLE n) = n := by
  induction n using Nat.strong_induction_on with
  | _ n ih =>
    by_cases h : n < 16
    · rw [toHexMinLE_of_lt h]
      simp [ofHexLE, digitVal_digitChar h]
    · rw [toHexMinLE_of_ge h]
      have hdiv : n / 16 < n := Nat.div_lt_self (by omega) (by omega)
      simp only [ofHexLE, ih (n / 16) hdiv, digitVal_digitChar (Nat.mod_lt n (by omega))]
      omega

theorem ofDecLE_toDecMinLE (n : ℕ) : ofDecLE (toDecMinLE n) = n := by
  induction n using Nat.strong_induction_on with
  | _ n ih =>
    by_cases h : n < 10
    · rw [toDecMinLE_of_lt h]
      simp [ofDecLE, digitVal_digitChar (show n < 16 by omega)]
    · rw [toDecMinLE_of_ge h]
      have hdiv : n / 10 < n := Nat.div_lt_self (by omega) (by omega)
      have hm : n % 10 < 16 := by omega
      simp only [ofDecLE, ih (n / 10) hdiv, digitVal_digitChar hm]
      omega

theorem toHexMinLE_ne_nil (n : ℕ) : toHexMinLE n ≠ [] := by
  by_cases h : n < 16
  · rw [toHexMinLE_of_lt h]
    simp
  · rw [toHexMinLE_of_ge h]
    simp

theorem toDecMinLE_ne_nil (n : ℕ) : toDecMinLE n ≠ [] := by
  by_cases h : n < 10
  · rw [toDecMinLE_of_lt h]
    simp
  · rw [toDecMinLE_of_ge h]
    simp

theorem mem_toHexMinLE_isLowerHexDigit (n : ℕ) :
    ∀ c ∈ toHexMinLE n, isLowerHexDigit c = true := by
  induction n using Nat.strong_induction_on with
  | _ n ih =>
    by_cases h : n < 16
    · rw [toHexMinLE_of_lt h]
      intro c hc
      simp only [List.mem_singleton] at hc
      subst hc
      exact isLowerHexDigit_digitChar h
    · rw [toHexMinLE_of_ge h]
      intro c hc
      rcases List.mem_cons.mp hc with hc | hc
      · subst hc
        exact isLowerHexDigit_digitChar (Nat.mod_lt n (by omega))
      · exact ih (n / 16) (Nat.div_lt_self (by omega) (by omega)) c hc

theorem mem_toDecMinLE_isDecDigit (n : ℕ) :
    ∀ c ∈ toDecMinLE n, isDecDigit c = true := by
  induction n using Nat.strong_induction_on with
  | _ n ih =>
    by_cases h : n < 10
    · rw [toDecMinLE_of_lt h]
      intro c hc
      simp only [List.mem_singleton] at hc
      subst hc
      exact isDecDigit_digitChar h
    · rw [toDecMinLE_of_ge h]
      intro c hc
      rcases List.mem_cons.mp hc with hc | hc
      · subst hc
        exact isDecDigit_digitChar (Nat.mod_lt n (by omega))
      · exact ih (n / 10) (Nat.div_lt_self (by omega) (by omega)) c hc

theorem ofHexLE_lt (l : List Char) (h : ∀ c ∈ l, isHexDigit c = true) :
    ofHexLE l < 16 ^ l.length := by
  induction l with
  | nil => simp [ofHexLE]
  | cons c r ih =>
    have hc := digitVal_lt_of_isHexDigit (h c (by simp))
    have hr := ih (fun d hd => h d (by simp [hd]))
    simp only [ofHexLE, List.length_cons, pow_succ]
    nlinarith

theorem toHexFixedLE_zero (k : ℕ) : toHexFixedLE k 0 = List.replicate k '0' := by
  induction k with
  | zero => rfl
  | succ k ih =>
    simp [toHexFixedLE, ih, List.replicate_succ]
    rfl

/-- On a list of lower-case hex digits, rendering the value back at the same
width reproduces the digits. -/
theorem toHexFixedLE_ofHexLE (l : List Char)
    (h : ∀ c ∈ l, isLowerHexDigit c = true) :
    toHexFixedLE l.length (ofHexLE l) = l := by
  induction l with
  | nil => rfl
  | cons c r ih =>
    have hc : isLowerHexDigit c = true := h c (by simp)
    have hcv : digitVal c < 16 := digitVal_lt_of_isHexDigit (isHexDigit_of_isLowerHexDigit hc)
    have hmod : (digitVal c + 16 * ofHexLE r) % 16 = digitVal c := by omega
    have hdiv : (digitVal c + 16 * ofHexLE r) / 16 = ofHexLE r := by omega
    simp only [List.length_cons, ofHexLE, toHexFixedLE, hmod, hdiv,
      digitChar_digitVal hc, ih (fun d hd => h d (by simp [hd]))]

/-- Fixed-width rendering (width at least 1) is the minimal rendering padded
with zeros at the most-significant end. -/
theorem toHexFixedLE_eq_min_pad : ∀ k n : ℕ, 1 ≤ k → n < 16 ^ k →
    toHexFixedLE k n = toHexMinLE n ++ List.replicate (k - (toHexMinLE n).length) '0' := by
  intro k
  induction k with
  | zero => intro n hk h; omega
  | succ k ih =>
    intro n hk h
    by_cases hn : n < 16
    · have h16 : n % 16 = n := Nat.mod_eq_of_lt hn
      have h0 : n / 16 = 0 := Nat.div_eq_of_lt hn
      show digitChar (n % 16) :: toHexFixedLE k (n / 16) = _
      rw [h16, h0, toHexFixedLE_zero, toHexMinLE_of_lt hn]
      simp only [List.singleton_append, List.length_singleton, Nat.add_sub_cancel]
    · have hk1 : 1 ≤ k := by
        rcases Nat.eq_zero_or_pos k with hkz | hkp
        · subst hkz
          exact absurd (by simpa using h) hn
        · exact hkp
      have hdivlt : n / 16 < 16 ^ k := by
        apply (Nat.div_lt_iff_lt_mul (by norm_num)).mpr
        calc n < 16 ^ (k + 1) := h
        _ = 16 ^ k * 16 := pow_succ 16 k
      rw [toHexFixedLE, toHexMinLE_of_ge hn, ih (n / 16) hk1 hdivlt]
      have hlen : k + 1 - ((toHexMinLE (n / 16)).length + 1)
          = k - (toHexMinLE (n / 16)).length := by
        omega
      simp only [List.cons_append, List.length_cons, hlen]

/-- Parsing the minimal hex rendering recovers the value
(`BigInt("0x" + n.toString(16)) == n`). -/
theorem ofHexLE_reverse_toHexStrL (n : ℕ) : ofHexLE (toHexStrL n).reverse = n := by
  rw [toHexStrL, List.reverse_reverse, ofHexLE_toHexMinLE]

/-- Parsing the minimal decimal rendering recovers the value
(`BigInt(n.toString()) == n`). -/
theorem ofDecLE_reverse_toDecStrL (n : ℕ) : ofDecLE (toDecStrL n).reverse = n := by
  rw [toDecStrL, List.reverse_reverse, ofDecLE_toDecMinLE]

/-- `padStart(width, c)` on a character list (JavaScript
`String.prototype.padStart`). -/
def padStartL (l : List Char) (width : ℕ) (c : Char) : List Char :=
  List.replicate (width - l.length) c ++ l

theorem padStartL_length (l : List Char) (width : ℕ) (c : Char) :
    (padStartL l width c).length = max width l.length := by
  simp [padStartL]
  omega

theorem padStartL_of_ge {l : List Char} {width : ℕ} (c : Char)
    (h : width ≤ l.length) : padStartL l width c = l := by
  simp [padStartL, Nat.sub_eq_zero_of_le h]

/-- The central hex round trip: a list of exactly `w ≥ 1` lower-case hex
digits is reproduced by parsing it and re-rendering with
`toString(16).padStart(w, "0")`. -/
theorem padStartL_toHexStrL_ofHex (l : List Char) (w : ℕ) (hw : 1 ≤ w)
    (hlen : l.length = w) (h : ∀ c ∈ l, isLowerHexDigit c = true) :
    padStartL (toHexStrL (ofHexLE l.reverse)) w '0' = l := by
  set n := ofHexLE l.reverse with hn
  have hmem : ∀ c ∈ l.reverse, isLowerHexDigit c = true := by
    intro c hc
    exact h c (List.mem_reverse.mp hc)
  have hbound : n < 16 ^ w := by
    have := ofHexLE_lt l.reverse
      (fun c hc => isHexDigit_of_isLowerHexDigit (hmem c hc))
    rwa [List.length_reverse, hlen] at this
  have hfix : toHexFixedLE w n = l.reverse := by
    have := toHexFixedLE_ofHexLE l.reverse hmem
    rwa [List.length_reverse, hlen] at this
  have hpad := toHexFixedLE_eq_min_pad w n hw hbound
  rw [hpad] at hfix
  have : l = (toHexMinLE n ++ List.replicate (w - (toHexMinLE n).length) '0').reverse := by
    rw [hfix, List.reverse_reverse]
  rw [this, List.reverse_append, List.reverse_replicate]
  simp [padStartL, toHexStrL]

/-! ### String-level utilities

The TypeScript source manipulates JavaScript strings; we model them as Lean
`String`s (= packed `List Char`) and define the handful of operations the
source uses.  `toLowerCase` is modelled by `Char.toLower` per character
(ASCII; all strings involved are ASCII hex/addresses).
-/

/-- JavaScript `s.toLowerCase()` (ASCII). -/
def lowerS (s : String) : String := String.mk (s.data.map Char.toLower)

/-- Substring check at the head: does the second list start with the first? -/
def startsWithL : List Char → List Char → Bool
  | [], _ => true
  | _ :: _, [] => false
  | p :: ps, h :: hs => p == h && startsWithL ps hs

/-- Does the character list start with `0x`? (JavaScript
`s.startsWith("0x")`, case sensitive.) -/
def startsWith0x (l : List Char) : Bool := startsWithL ['0', 'x'] l

theorem startsWith0x_eq_true {l : List Char} (h : startsWith0x l = true) :
    ∃ t, l = '0' :: 'x' :: t := by
  rcases l with _ | ⟨a, _ | ⟨b, t⟩⟩
  · simp [startsWith0x, startsWithL] at h
  · simp [startsWith0x, startsWithL] at h
  · refine ⟨t, ?_⟩
    simp only [startsWith0x, startsWithL, Bool.and_eq_true, beq_iff_eq] at h
    rw [h.1, h.2.1]

theorem startsWith0x_cons (t : List Char) : startsWith0x ('0' :: 'x' :: t) = true := by
  simp [startsWith0x, startsWithL]

/-- `padAddress` from `tongo-service.ts` (the spec's
`AddressCanonicalizer.normalize`), on character lists:

```ts
function padAddress(address: string): string {
  if (!address) return address;
  if (!address.startsWith('0x')) {
    address = '0x' + address;
  }
  return '0x' + address.slice(2).padStart(64, '0');
}
```
-/
def padAddressL (l : List Char) : List Char :=
  if l = [] then l
  else
    let a := if startsWith0x l then l else '0' :: 'x' :: l
    '0' :: 'x' :: padStartL (a.drop 2) 64 '0'

/-- `padAddress` on strings. -/
def padAddress (s : String) : String := String.mk (padAddressL s.data)

/-- JavaScript `hay.includes(pat)`. -/
def containsSub (hay pat : List Char) : Bool :=
  if startsWithL pat hay then true
  else
    match hay with
    | [] => false
    | _ :: t => containsSub t pat

/-- `hay.includes(pat)` on strings. -/
def containsS (hay pat : String) : Bool := containsSub hay.data pat.data

theorem padAddressL_cons0x (t : List Char) :
    padAddressL ('0' :: 'x' :: t) = '0' :: 'x' :: padStartL t 64 '0' := by
  rw [padAddressL, if_neg (by simp)]
  simp only [startsWith0x_cons, if_true]
  rfl

theorem padAddressL_idem (l : List Char) : padAddressL (padAddressL l) = padAddressL l := by
  by_cases h : l = []
  · subst h
    rfl
  · have h1 : padAddressL l = '0' :: 'x' ::
        padStartL ((if startsWith0x l then l else '0' :: 'x' :: l).drop 2) 64 '0' := by
      rw [padAddressL, if_neg h]
    rw [h1, padAddressL_cons0x,
      padStartL_of_ge '0' (by rw [padStartL_length]; omega)]

theorem padAddressL_length (l : List Char) (h : l ≠ [])
    (hp : (if startsWith0x l then l.length - 2 else l.length) ≤ 64) :
    (padAddressL l).length = 66 := by
  rw [padAddressL, if_neg h]
  by_cases hs : startsWith0x l
  · obtain ⟨t, rfl⟩ := startsWith0x_eq_true hs
    rw [if_pos hs] at hp ⊢
    simp only [List.length_cons, List.drop_succ_cons, List.drop_zero, padStartL_length]
    simp only [List.length_cons] at hp
    omega
  · rw [if_neg hs] at hp ⊢
    simp only [List.drop_succ_cons, List.drop_zero, List.length_cons, padStartL_length]
    omega

/-! ### `BigInt` parsing and rendering

`parseFeltL` models JavaScript `BigInt(s)` for the string shapes that occur
in this code base: `0x`-prefixed hex strings and plain decimal-digit strings.
(`BigInt` also accepts some other forms — signs, binary/octal prefixes,
whitespace — none of which arise here.)  `none` models `BigInt` throwing a
`SyntaxError`. -/
def parseFeltL (l : List Char) : Option ℕ :=
  if startsWith0x l then
    let rest := l.drop 2
    if rest ≠ [] ∧ rest.all isHexDigit then some (ofHexLE rest.reverse) else none
  else if l ≠ [] ∧ l.all isDecDigit then some (ofDecLE l.reverse) else none

/-- `BigInt(s)` on strings. -/
def parseFelt (s : String) : Option ℕ := parseFeltL s.data

/-- `"0x" + n.toString(16).padStart(64, "0")` — the canonical 66-character
re-rendering of an address value used throughout `fundDonationAccount`. -/
def hex64 (n : ℕ) : String := String.mk ('0' :: 'x' :: padStartL (toHexStrL n) 64 '0')

/-- `n.toString()` for a bigint, as a string. -/
def decString (n : ℕ) : String := String.mk (toDecStrL n)

/-- `z.toString()` for a possibly negative bigint. -/
def intDecStr (z : ℤ) : String :=
  if z < 0 then "-" ++ String.mk (toDecStrL z.natAbs) else String.mk (toDecStrL z.natAbs)

theorem parseFeltL_dec_digits (l : List Char) (hne : l ≠ [])
    (h : ∀ c ∈ l, isDecDigit c = true) :
    parseFeltL l = some (ofDecLE l.reverse) := by
  have hsw : startsWith0x l = false := by
    by_contra hcon
    have htrue : startsWith0x l = true := by
      cases hx : startsWith0x l
      · exact absurd hx hcon
      · rfl
    obtain ⟨t, rfl⟩ := startsWith0x_eq_true htrue
    exact absurd (h 'x' (by simp)) (by decide)
  rw [parseFeltL, hsw]
  simp only [Bool.false_eq_true, if_false]
  rw [if_pos ⟨hne, List.all_eq_true.mpr h⟩]

/-- Parsing the decimal rendering of `n` gives back `n`
(`BigInt(n.toString()) == n`). -/
theorem parseFelt_decString (n : ℕ) : parseFelt (decString n) = some n := by
  have h1 : parseFeltL (toDecStrL n) = some (ofDecLE (toDecStrL n).reverse) := by
    apply parseFeltL_dec_digits
    · simp [toDecStrL, toDecMinLE_ne_nil n]
    · intro c hc
      exact mem_toDecMinLE_isDecDigit n c (List.mem_reverse.mp hc)
  rw [parseFelt, decString]
  show parseFeltL (toDecStrL n) = some n
  rw [h1, ofDecLE_reverse_toDecStrL]

/-- Parsing the minimal hex rendering of `n` gives back `n`
(`BigInt("0x" + n.toString(16)) == n`). -/
theorem parseFeltL_hexStr (n : ℕ) : parseFeltL ('0' :: 'x' :: toHexStrL n) = some n := by
  rw [parseFeltL]
  rw [if_pos (startsWith0x_cons _)]
  simp only [List.drop_succ_cons, List.drop_zero]
  rw [if_pos ?hyp]
  case hyp =>
    constructor
    · simp [toHexStrL, toHexMinLE_ne_nil n]
    · rw [List.all_eq_true]
      intro c hc
      exact isHexDigit_of_isLowerHexDigit
        (mem_toHexMinLE_isLowerHexDigit n c (List.mem_reverse.mp hc))
  rw [ofHexLE_reverse_toHexStrL]

/-! ### Account identity (`isValidTongoPrivateKey` and the constructor key check)

`isValidTongoPrivateKey` returns a boolean and prints a distinct console
warning per failure cause; `KeyCheck` records the cause (`.ok` corresponds to
`true`, every other constructor to `false` with the matching warning). -/

/-- The Stark curve group order hard-coded in `isValidTongoPrivateKey`. -/
def starkCurveOrder : ℕ :=
  3618502788666131213697322783095070105526743751716087489154079457884512865583

inductive KeyCheck
  /-- validation passed (`return true`) -/
  | ok
  /-- empty / non-string key, or key without the `0x` marker -/
  | badFormat
  /-- `BigInt(key)` threw -/
  | parseFail
  /-- warning: "Key is too small - must be >= 1" -/
  | tooSmall
  /-- warning: "Key is outside valid range for Stark curve" -/
  | outOfRange
deriving DecidableEq

/-- `isValidTongoPrivateKey` from `tongo-service.ts` (lines 42-75). -/
def isValidTongoPrivateKey (key : String) : KeyCheck :=
  if key.data = [] then .badFormat
  else if startsWith0x key.data = false then .badFormat
  else
    match parseFeltL key.data with
    | none => .parseFail
    | some k =>
      if k < 1 then .tooSmall
      else if starkCurveOrder ≤ k then .outOfRange
      else .ok

/-- The two errors the `TongoService` constructor can throw about the key.
Both key-range failures surface as the single `.invalidKey` error; the
distinct causes exist only as console warnings inside
`isValidTongoPrivateKey`. -/
inductive CtorErr
  /-- "Tongo private key is required. ..." -/
  | keyRequired
  /-- "Invalid Tongo private key. The key must be a valid scalar on the
  Stark curve. ..." -/
  | invalidKey
deriving DecidableEq

def zeroKey64 : String :=
  "0x0000000000000000000000000000000000000000000000000000000000000000"

/-- The key validation performed by the `TongoService` constructor
(lines 104-118): reject empty / all-zero keys, then validate the scalar. -/
def constructorKeyCheck (key : String) : Except CtorErr Unit :=
  if key.data = [] ∨ key = zeroKey64 then .error .keyRequired
  else if isValidTongoPrivateKey key ≠ .ok then .error .invalidKey
  else .ok ()

/-- `"0x" + s.toString(16)`: the natural hex rendering of a scalar key. -/
def hexKeyStr (s : ℕ) : String := String.mk ('0' :: 'x' :: toHexStrL s)

/-! ### Calls and the calldata-integrity repair -/

/-- A Starknet `Call`; calldata entries are felt strings (the SDK produces
strings; `number`/`bigint` entries are coerced through `String()` by the
source before use, so strings model all three). -/
structure CallModel where
  contractAddress : String
  entrypoint : String
  calldata : List String
deriving DecidableEq

/-- The approve-calldata repair block of `fundDonationAccount` (lines
409-434, repeated verbatim at lines 459-484): decode calldata slot 0 with
`BigInt`, re-render it as `0x` + 64 lower-case hex digits, compare
case-insensitively with the stored (padded) Tongo contract address, and on
mismatch overwrite slot 0 with the decimal string of the contract address.
`parseFelt s0 = none` models `BigInt` throwing (which aborts the whole fund
call; no repaired call is produced, so the call is left unchanged here). -/
def repairApprove (tongoContractAddress : String) (c : CallModel) : CallModel :=
  match c.calldata with
  | [] => c
  | s0 :: rest =>
    match parseFelt s0 with
    | none => c
    | some n =>
      if lowerS (hex64 n) = lowerS tongoContractAddress then c
      else
        let patched := decString ((parseFelt tongoContractAddress).getD 0)
        { c with calldata := patched :: rest }

/-! ### Network configuration -/

/-- The mainnet USDC token address tested by
`this.strkAddress.toLowerCase() === '0x053c...68a8'`. -/
def usdcMainnet : String :=
  "0x053c91253bc9682c04929ca02ed00b3e423f6710d2ee7e0d5ebb06f3ecf368a8"

/-- `isMainnet` as computed throughout `tongo-service.ts`. -/
def isMainnetFor (strkAddress : String) : Bool := lowerS strkAddress == usdcMainnet

/-- USDC has 6 decimals, STRK has 18. -/
def tokenDecimals (strkAddress : String) : ℕ :=
  if isMainnetFor strkAddress then 6 else 18

/-- `isMainnet ? 'USDC' : 'STRK'`. -/
def tokenNameFor (strkAddress : String) : String :=
  if isMainnetFor strkAddress then "USDC" else "STRK"

/-! ### Cached client state and `refreshState` -/

/-- A JavaScript number as far as the nonce field needs: an integer or NaN
(`Number(v)` of a non-numeric value). -/
inductive JsNum
  | num (z : ℤ)
  | nan
deriving DecidableEq

/-- The numeric fields of `TongoDonationState` (the spec's
`ShieldedAccountState`); the two constant string fields are omitted. -/
structure ClientState where
  currentBalance : ℤ
  pendingBalance : ℤ
  nonce : JsNum
deriving DecidableEq

/-- A field of the ledger's account projection: a numeric value, `null`, or
a value whose string form `BigInt` rejects. -/
inductive FieldVal
  | intVal (z : ℤ)
  | nullVal
  | badVal
deriving DecidableEq

/-- The `{balance, pending, nonce}` object returned by
`tongoAccount.state()`; `none` = property absent. -/
structure AccountStateResp where
  balance : Option FieldVal
  pending : Option FieldVal
  nonce : Option FieldVal
deriving DecidableEq

/-- Value stored for a balance field: present numeric values are scaled by
`10^d` (`Math.pow(10, 6)` and `Math.pow(10, 18)` are both exact doubles, so
`BigInt(Math.pow(10, tokenDecimals))` is exactly `10^d`); `null`/absent
store `0`; `none` models `BigInt(String(v))` throwing. -/
def balanceFieldValue (d : ℕ) : Option FieldVal → Option ℤ
  | some (.intVal z) => some (z * (10 : ℤ) ^ d)
  | some .nullVal => some 0
  | none => some 0
  | some .badVal => none

/-- `refreshState` (lines 852-948).  The ledger query result is
`.error msg` when `tongoAccount.state()` rejects.  Field updates are applied
to `this.state` in source order (balance, then pending, then nonce); a
`BigInt` conversion error aborts at that point, is caught by the
surrounding catch, and re-thrown as the state-refresh error — any fields
already assigned keep their new values.  Returns the resulting cached state
together with the raised error, if any. -/
def refreshState (strkAddress : String) (st : ClientState)
    (resp : Except String AccountStateResp) : ClientState × Option String :=
  match resp with
  | .error msg => (st, some ("Failed to refresh account state: " ++ msg))
  | .ok a =>
    let d := tokenDecimals strkAddress
    match balanceFieldValue d a.balance with
    | none => (st, some "Failed to refresh account state: Cannot convert value to a BigInt")
    | some cb =>
      let st1 := { st with currentBalance := cb }
      match balanceFieldValue d a.pending with
      | none => (st1, some "Failed to refresh account state: Cannot convert value to a BigInt")
      | some pb =>
        let st2 := { st1 with pendingBalance := pb }
        let st3 :=
          match a.nonce with
          | some (.intVal z) => { st2 with nonce := JsNum.num z }
          | some .badVal => { st2 with nonce := JsNum.nan }
          | _ => st2
        (st3, none)

/-- `getState` (lines 800-802): returns a snapshot copy of the cached
state. -/
def getState (st : ClientState) : ClientState := st

/-! ### The fund / withdraw orchestration

Collaborator calls are recorded in an event trace (in the order the source
awaits them).  Collaborator *responses* are drawn from the environment and
modelled as successful — the claims under verification are about the local
validation and its ordering relative to these calls, plus the local error
classification of errors raised inside the `try` block. -/

inductive Ev
  /-- `tongoAccount.erc20ToTongo(tokenAmount)` — the exchange-rate query,
  with the token amount passed to it -/
  | rateQuery (tokenAmount : ℤ)
  /-- `tongoAccount.fund({amount, sender})` — the ProofBuilder call -/
  | proofFund (amount : ℤ) (sender : String)
  /-- `provider.callContract(balanceOf)` via `getWalletBalance` -/
  | balanceQuery
  /-- `starknetAccount.execute(calls)` -/
  | execCalls (calls : List CallModel)
  /-- `tongoAccount.withdraw({amount, to, sender})` — the ProofBuilder call -/
  | proofWithdraw (amount : ℤ) (toAddr : String) (sender : String)
  /-- `tongoAccount.state()` — the ledger account-state query -/
  | ledgerStateQuery
  /-- the trailing `refreshState()` ledger read -/
  | refreshQuery
deriving DecidableEq

/-- The environment of one `fundDonationAccount` call: the service's stored
configuration plus the collaborator responses. -/
structure FundEnv where
  /-- `this.strkAddress` (the configured token address, stored unpadded) -/
  strkAddress : String
  /-- `this.tongoContractAddress` (stored padded by the constructor) -/
  tongoContractAddress : String
  /-- `this.starknetAddress` (stored padded by the constructor) -/
  starknetAddress : String
  /-- `this.starknetAccount.address` (the executor wallet's raw address) -/
  executorAddress : String
  /-- response of `erc20ToTongo`: token amount → Tongo amount -/
  rate : ℤ → ℤ
  /-- `fundOperation.approve` as produced by the SDK -/
  sdkApprove : CallModel
  /-- the fund `Call` obtained from `fundOperation.toCalldata()` -/
  sdkFundCall : CallModel
  /-- response of the `balanceOf` wallet-balance query -/
  walletBalance : ℤ
  /-- `tx.transaction_hash` returned by `execute` -/
  txHash : String

/-- The error classification in `fundDonationAccount`'s catch block
(lines 554-612): the message of the caught error is matched by substring
and replaced by a fixed user-facing message; only unrecognized messages are
kept (prefixed with "Fund failed: "). -/
def fundCatch (isMainnet : Bool) (msg : String) : String :=
  let tokenName := if isMainnet then "USDC" else "STRK"
  if containsS msg "NotOwner" || containsS msg "NowOwner" then
    tokenName ++ " approval failed. Ensure you have " ++ tokenName
      ++ " and using correct " ++ (if isMainnet then "mainnet" else "testnet")
      ++ " network. Try: 1) Check wallet balance, 2) Switch to correct network in dropdown, 3) Reload page"
  else if containsS msg "Insufficient balance" then
    "Insufficient " ++ tokenName ++ " balance. You need more " ++ tokenName ++ " in your wallet."
  else if containsS msg "PubKey is not an EcPoint" || containsS msg "EcPoint" then
    "Public key format error: The Tongo SDK generated an invalid public key format. "
      ++ "Try: Clear localStorage (localStorage.clear()) and refresh the page to generate a new Tongo key."
  else if containsS msg "Proof Of Ownership failed" || containsS msg "Proof" || containsS msg "proof" then
    "ZK proof generation failed. Try reloading page or checking Tongo key."
  else if containsS msg "resource_bounds" || containsS msg "gas" || containsS msg "fee" then
    "Transaction failed due to invalid gas bounds. Try: Refresh the page and try again with a smaller amount."
  else if containsS msg "DEPLOY_ACCOUNT" || containsS msg "deploy" then
    "Account deployment error: Your Starknet account may not be deployed yet. "
      ++ "Try: Make a small transaction first to deploy the account, or use a different wallet."
  else "Fund failed: " ++ msg

/-- Lines 218-224: on mainnet, an amount of at least `BigInt(1e15)` is
treated as an 18-decimals slip and divided by `BigInt(1e12)` (`1e15` and
`1e12` are exact doubles, so these are exactly `10^15` and `10^12`). -/
def normalizedTokenAmount (strkAddress : String) (amountInToken : ℤ) : ℤ :=
  if isMainnetFor strkAddress = true ∧ (10 : ℤ) ^ 15 ≤ amountInToken then
    amountInToken / (10 : ℤ) ^ 12
  else amountInToken

/-- `fundDonationAccount` (lines 207-613), as result plus collaborator
trace.  All collaborator responses succeed (the claims verified here
concern the local checks and their placement); errors thrown inside the
`try` block (line 246 onward) pass through `fundCatch`.  The
insufficient-balance message renders the raw integer amounts where the
source shows `toFixed` float formatting — only the "Insufficient balance"
head of the message is ever inspected (by `fundCatch`). -/
def fundDonationAccount (env : FundEnv) (amountInToken : ℤ) :
    Except String String × List Ev :=
  let isMainnet := isMainnetFor env.strkAddress
  let tokenName := tokenNameFor env.strkAddress
  if amountInToken ≤ 0 then
    (.error "Amount must be greater than 0", [])
  else
    let tokenAmount := normalizedTokenAmount env.strkAddress amountInToken
    let tongoAmount := env.rate tokenAmount
    let tr0 := [Ev.rateQuery tokenAmount]
    if 2147483647 < tongoAmount then
      (.error ("Amount " ++ intDecStr tongoAmount ++ " " ++ tokenName
        ++ " exceeds maximum 32-bit limit of 2147483647. Please use a smaller amount."), tr0)
    else if tongoAmount ≤ 0 then
      (.error "Converted amount must be greater than 0", tr0)
    else
      let paddedExecutor := padAddress env.executorAddress
      let paddedService := padAddress env.starknetAddress
      if lowerS paddedExecutor ≠ lowerS paddedService then
        (.error (fundCatch isMainnet ("Address mismatch: Executor (" ++ paddedExecutor
          ++ ") != Service (" ++ paddedService ++ "). This will cause \"NotOwner\" error.")), tr0)
      else
        let tr1 := tr0 ++ [Ev.proofFund tongoAmount env.executorAddress]
        let approve1 := repairApprove env.tongoContractAddress env.sdkApprove
        let tr2 := tr1 ++ [Ev.balanceQuery]
        if env.walletBalance < amountInToken then
          (.error (fundCatch isMainnet ("Insufficient balance: " ++ intDecStr env.walletBalance
            ++ " " ++ tokenName ++ " < " ++ intDecStr amountInToken ++ " " ++ tokenName)), tr2)
        else
          let approve2 := repairApprove env.tongoContractAddress approve1
          (.ok env.txHash,
            tr2 ++ [Ev.execCalls [approve2, env.sdkFundCall], Ev.refreshQuery])

/-- The environment of one `withdrawDonations` call. -/
structure WithdrawEnv where
  /-- `this.starknetAccount.address` -/
  executorAddress : String
  /-- `accountState.balance` returned by `tongoAccount.state()` -/
  ledgerBalance : ℤ
  /-- the withdraw `Call` obtained from `withdrawOperation.toCalldata()` -/
  sdkWithdrawCall : CallModel
  /-- `tx.transaction_hash` -/
  txHash : String

/-- `withdrawDonations` (lines 744-795): queries ledger state, pre-checks
the balance, then calls the ProofBuilder and executes.  The catch block
wraps every failure as "Withdraw operation failed: " + cause. -/
def withdrawDonations (env : WithdrawEnv) (amountInTongo : ℤ) :
    Except String String × List Ev :=
  let tr0 := [Ev.ledgerStateQuery]
  if env.ledgerBalance < amountInTongo then
    (.error ("Withdraw operation failed: Insufficient balance: "
      ++ intDecStr env.ledgerBalance ++ " < " ++ intDecStr amountInTongo), tr0)
  else
    (.ok env.txHash,
      tr0 ++ [Ev.proofWithdraw amountInTongo env.executorAddress env.executorAddress,
        Ev.execCalls [env.sdkWithdrawCall], Ev.refreshQuery])

/-! ### Public-key parsing (`parsePublicKey`) and re-encoding -/

/-- The whitespace class removed by `trim()` (ASCII part; all inputs here
are ASCII). -/
def isWsChar (c : Char) : Bool := decide (c.toNat = 32 ∨ (9 ≤ c.toNat ∧ c.toNat ≤ 13))

/-- JavaScript `s.trim()` on a character list. -/
def trimL (l : List Char) : List Char :=
  ((l.dropWhile isWsChar).reverse.dropWhile isWsChar).reverse

inductive PubKeyParse
  /-- no `0x`: handed to the external base58 decoder with the trimmed
  string -/
  | externalBase58 (s : String)
  /-- parsed affine coordinates -/
  | coords (x y : ℕ)
  /-- thrown error, with the message that reaches the caller after the
  catch block at lines 1003-1011 -/
  | err (msg : String)
deriving DecidableEq

/-- The wrapping applied by `parsePublicKey`'s catch to every error whose
message does not contain "Invalid hex format". -/
def pubKeyWrapMsg (cause : String) : String :=
  "Failed to parse public key: " ++ cause
    ++ ". Supported formats: base58 TongoAddress or hex 0x<x64hex><y64hex>"

def compressedPointCause : String :=
  "Compressed point format detected. Please provide full affine coordinates (x, y) "
    ++ "or use base58 TongoAddress format. Expected format: 0x<x64hex><y64hex> (128 hex chars total)"

def incompleteKeyCause : String :=
  "Incomplete public key. Please provide both x and y coordinates: "
    ++ "0x<x64hex><y64hex> (128 hex chars total) or use base58 TongoAddress format"

/-- `parsePublicKey` (lines 958-1012).  Length-66 and length-64 hex payloads
throw the two descriptive errors above; since neither message contains
"Invalid hex format", the catch re-wraps them through `pubKeyWrapMsg`.  Any
other length throws the "Invalid hex format..." message, which the catch
re-throws unwrapped. -/
def parsePublicKey (pubKeyString : String) : PubKeyParse :=
  let trimmed := trimL pubKeyString.data
  if startsWith0x trimmed then
    let hexValue := trimmed.drop 2
    if hexValue.length = 128 then
      match parseFeltL ('0' :: 'x' :: hexValue.take 64),
        parseFeltL ('0' :: 'x' :: hexValue.drop 64) with
      | some x, some y => .coords x y
      | _, _ => .err (pubKeyWrapMsg "Cannot convert value to a BigInt")
    else if hexValue.length = 66 then .err (pubKeyWrapMsg compressedPointCause)
    else if hexValue.length = 64 then .err (pubKeyWrapMsg incompleteKeyCause)
    else .err ("Invalid hex format. Expected 128 hex chars (64 bytes each for x and y) "
      ++ "or base58 TongoAddress format. Got " ++ decString hexValue.length ++ " hex chars.")
  else .externalBase58 (String.mk trimmed)

/-- The constructor's point-to-hex encoding (lines 154-158):
`0x` + x padded to 64 hex digits + y padded to 64 hex digits. -/
def encodePubKey (x y : ℕ) : String :=
  String.mk ('0' :: 'x' :: (padStartL (toHexStrL x) 64 '0' ++ padStartL (toHexStrL y) 64 '0'))

/-! ### Supporting lemmas for the claim theorems -/

theorem data_mk (l : List Char) : (String.mk l).data = l := rfl

theorem ofHexLE_replicate_zero (k : ℕ) : ofHexLE (List.replicate k '0') = 0 := by
  induction k with
  | zero => rfl
  | succ k ih =>
    rw [List.replicate_succ]
    show digitVal '0' + 16 * ofHexLE (List.replicate k '0') = 0
    rw [ih]
    decide

theorem toHexStrL_ne_replicate64 (s : ℕ) : toHexStrL s ≠ List.replicate 64 '0' := by
  intro h
  have hmin : toHexMinLE s = List.replicate 64 '0' := by
    have := congrArg List.reverse h
    rwa [toHexStrL, List.reverse_reverse, List.reverse_replicate] at this
  have hs0 : s = 0 := by
    have := ofHexLE_toHexMinLE s
    rw [hmin, ofHexLE_replicate_zero] at this
    omega
  subst hs0
  rw [toHexMinLE_of_lt (by norm_num)] at hmin
  have := congrArg List.length hmin
  simp at this

theorem hexKeyStr_ne_zeroKey64 (s : ℕ) : hexKeyStr s ≠ zeroKey64 := by
  intro h
  have hdata : ('0' :: 'x' :: toHexStrL s) = zeroKey64.data := congrArg String.data h
  have hz : zeroKey64.data = '0' :: 'x' :: List.replicate 64 '0' := by decide
  rw [hz] at hdata
  have htail : toHexStrL s = List.replicate 64 '0' := by
    injection hdata with h1 h2
    injection h2
  exact toHexStrL_ne_replicate64 s htail

/-- Evaluation of `isValidTongoPrivateKey` on the hex rendering of an
arbitrary scalar. -/
theorem isValid_hexKeyStr (s : ℕ) :
    isValidTongoPrivateKey (hexKeyStr s)
      = if s < 1 then KeyCheck.tooSmall
        else if starkCurveOrder ≤ s then KeyCheck.outOfRange
        else KeyCheck.ok := by
  have hdata : (hexKeyStr s).data = '0' :: 'x' :: toHexStrL s := rfl
  rw [isValidTongoPrivateKey, hdata, if_neg (by simp), parseFeltL_hexStr,
    if_neg (by simp [startsWith0x_cons])]

/-- Evaluation of the constructor's key check on the hex rendering of an
arbitrary scalar. -/
theorem constructorKeyCheck_hexKeyStr (s : ℕ) :
    constructorKeyCheck (hexKeyStr s)
      = if s < 1 then Except.error CtorErr.invalidKey
        else if starkCurveOrder ≤ s then Except.error CtorErr.invalidKey
        else Except.ok () := by
  rw [constructorKeyCheck,
    if_neg (by
      push_neg
      exact ⟨by simp [hexKeyStr, data_mk], hexKeyStr_ne_zeroKey64 s⟩)]
  rw [isValid_hexKeyStr]
  by_cases h1 : s < 1
  · rw [if_pos h1, if_pos h1, if_pos (by simp [if_pos h1])]
  · rw [if_neg h1, if_neg h1]
    by_cases h2 : starkCurveOrder ≤ s
    · rw [if_pos h2, if_pos h2, if_pos (by simp [if_neg h1, if_pos h2])]
    · rw [if_neg h2, if_neg h2, if_neg (by simp [if_neg h1, if_neg h2])]

theorem starkCurveOrder_one_lt : 1 < starkCurveOrder := by
  unfold starkCurveOrder
  norm_num

/-- Regardless of which validation branch exits `fundDonationAccount`, the
first collaborator call of a positive-amount fund is always the
exchange-rate query on the normalized token amount. -/
theorem fund_trace_head (env : FundEnv) (a : ℤ) (ha : 0 < a) :
    (fundDonationAccount env a).2.head?
      = some (Ev.rateQuery (normalizedTokenAmount env.strkAddress a)) := by
  simp only [fundDonationAccount]
  split_ifs <;> first | rfl | omega

/-! ### Concrete inputs used by counterexamples and witnesses -/

/-- The default Sepolia STRK token address from `config.ts` (not the
mainnet USDC address, so `isMainnetFor` is `false`). -/
def strkSepolia : String :=
  "0x04718f5a0fc34cc1af16a1cdee98ffb20c31f5cd61d6ab07201858f4287c938d"

/-- The default Tongo contract address from `config.ts`, stored padded as
the constructor does. -/
def tongoPadded : String :=
  padAddress "0x00b4cca30f0f641e01140c1c388f55641f1c3fe5515484e622b6cb91d8cee585"

/-- A fund environment whose executor and stored service address differ
(`0x1` vs `0x2`), on testnet, with a 1:1 exchange rate. -/
def fundEnvMismatch : FundEnv where
  strkAddress := strkSepolia
  tongoContractAddress := tongoPadded
  starknetAddress := padAddress "0x2"
  executorAddress := "0x1"
  rate := fun t => t
  sdkApprove := ⟨strkSepolia, "approve", ["1", "5", "0"]⟩
  sdkFundCall := ⟨tongoPadded, "fund", ["7"]⟩
  walletBalance := 100
  txHash := "0xtxhash"

/-- A fund environment with matching addresses whose exchange-rate query
answers `2^31` (one above the 32-bit limit). -/
def fundEnvOverflow : FundEnv where
  strkAddress := strkSepolia
  tongoContractAddress := tongoPadded
  starknetAddress := padAddress "0x1"
  executorAddress := "0x1"
  rate := fun _ => 2147483648
  sdkApprove := ⟨strkSepolia, "approve", ["1", "5", "0"]⟩
  sdkFundCall := ⟨tongoPadded, "fund", ["7"]⟩
  walletBalance := 100
  txHash := "0xtxhash"

/-- A mainnet fund environment (token address = mainnet USDC) with matching
addresses and a 1:1 exchange rate. -/
def fundEnvMainnet : FundEnv where
  strkAddress := usdcMainnet
  tongoContractAddress := tongoPadded
  starknetAddress := padAddress "0x1"
  executorAddress := "0x1"
  rate := fun t => t
  sdkApprove := ⟨usdcMainnet, "approve", ["1", "5", "0"]⟩
  sdkFundCall := ⟨tongoPadded, "fund", ["7"]⟩
  walletBalance := 100
  txHash := "0xtxhash"

/-- A withdraw environment with a ledger balance of `3 * 10^9` Tongo
units. -/
def withdrawEnvBig : WithdrawEnv where
  executorAddress := "0x1"
  ledgerBalance := 3000000000
  sdkWithdrawCall := ⟨tongoPadded, "withdraw", ["9"]⟩
  txHash := "0xwtx"

/-! ### The claim theorems -/

set_option maxRecDepth 10000 in
/-- C1: when the canonical executor address differs from the canonical
owner address, `fundDonationAccount` does fail before the ProofBuilder
(`tongoAccount.fund`) is invoked — the trace holds only the exchange-rate
query — but the error that reaches the caller is not the identity-mismatch
error: the thrown "Address mismatch: ..." message contains the substring
"NotOwner", so the operation's own catch block reclassifies it as the
token-approval failure message.  Evaluated at executor `0x1` vs stored
owner `0x2` on testnet with amount 5. -/
theorem claim1_identity_mismatch_masked :
    (fundDonationAccount fundEnvMismatch 5).1
      = Except.error ("STRK approval failed. Ensure you have STRK and using correct testnet network."
          ++ " Try: 1) Check wallet balance, 2) Switch to correct network in dropdown, 3) Reload page")
    ∧ (fundDonationAccount fundEnvMismatch 5).2 = [Ev.rateQuery 5]
    ∧ (fundDonationAccount fundEnvMismatch 5).1
      ≠ Except.error ("Address mismatch: Executor (" ++ padAddress "0x1" ++ ") != Service ("
          ++ padAddress "0x2" ++ "). This will cause \"NotOwner\" error.") := by
  refine ⟨by decide, by decide, by decide⟩

/-- C2 counterexample: with the exchange-rate query answering `2^31`, fund
fails with the overflow error, but its trace already holds the
exchange-rate collaborator call — so the overflow check does not happen
"before any collaborator call" as claimed: the converted amount can only be
checked after the conversion query itself. -/
theorem claim2_counterexample :
    (fundDonationAccount fundEnvOverflow 5).1
      = Except.error ("Amount 2147483648 STRK exceeds maximum 32-bit limit of 2147483647."
          ++ " Please use a smaller amount.")
    ∧ (fundDonationAccount fundEnvOverflow 5).2 = [Ev.rateQuery 5]
    ∧ [Ev.rateQuery 5] ≠ ([] : List Ev) := by
  refine ⟨by decide, by decide, by decide⟩

/-- C2 (amended): whenever the converted shielded amount exceeds
`2^31 - 1`, fund fails with the overflow error after exactly one
collaborator call — the exchange-rate conversion that produced the amount —
and before the ProofBuilder is invoked or any call is constructed or
executed. -/
theorem claim2_overflow_before_proof (env : FundEnv) (a : ℤ) (ha : 0 < a)
    (hover : 2147483647 < env.rate (normalizedTokenAmount env.strkAddress a)) :
    fundDonationAccount env a
      = (Except.error ("Amount " ++ intDecStr (env.rate (normalizedTokenAmount env.strkAddress a))
          ++ " " ++ tokenNameFor env.strkAddress
          ++ " exceeds maximum 32-bit limit of 2147483647. Please use a smaller amount."),
        [Ev.rateQuery (normalizedTokenAmount env.strkAddress a)]) := by
  rw [fundDonationAccount, if_neg (by omega), if_pos hover]

theorem claim2_overflow_before_proof_witness :
    (0 : ℤ) < 5
    ∧ 2147483647 < fundEnvOverflow.rate (normalizedTokenAmount fundEnvOverflow.strkAddress 5)
    ∧ fundDonationAccount fundEnvOverflow 5
      = (Except.error ("Amount "
          ++ intDecStr (fundEnvOverflow.rate (normalizedTokenAmount fundEnvOverflow.strkAddress 5))
          ++ " " ++ tokenNameFor fundEnvOverflow.strkAddress
          ++ " exceeds maximum 32-bit limit of 2147483647. Please use a smaller amount."),
        [Ev.rateQuery (normalizedTokenAmount fundEnvOverflow.strkAddress 5)]) :=
  ⟨by norm_num, by decide, claim2_overflow_before_proof fundEnvOverflow 5 (by norm_num) (by decide)⟩

/-- C3 counterexample: `withdrawDonations` applies none of fund's checks.
With a ledger balance of `3 * 10^9`, a withdraw of `2^31` (which exceeds
`2^31 - 1`) raises no overflow error: the ProofBuilder is invoked and the
operation succeeds. -/
theorem claim3_counterexample :
    (2147483647 : ℤ) < 2147483648
    ∧ (withdrawDonations withdrawEnvBig 2147483648).1 = Except.ok "0xwtx"
    ∧ Ev.proofWithdraw 2147483648 "0x1" "0x1" ∈ (withdrawDonations withdrawEnvBig 2147483648).2 := by
  refine ⟨by norm_num, by decide, by decide⟩

/-- C3 (amended): the only precondition `withdrawDonations` enforces is the
ledger-balance sufficiency pre-check (after the ledger state query): an
insufficient balance fails with the wrapped insufficient-balance error
before the ProofBuilder; in every other case — including non-positive
amounts, amounts above `2^31 - 1`, and any executor/owner relationship —
the ProofBuilder is invoked.  None of fund's positivity / overflow /
identity checks exist in withdraw. -/
theorem claim3_withdraw_balance_check_only (env : WithdrawEnv) (a : ℤ) :
    (env.ledgerBalance < a →
      withdrawDonations env a
        = (Except.error ("Withdraw operation failed: Insufficient balance: "
            ++ intDecStr env.ledgerBalance ++ " < " ++ intDecStr a), [Ev.ledgerStateQuery]))
    ∧ (a ≤ env.ledgerBalance →
      withdrawDonations env a
        = (Except.ok env.txHash,
          [Ev.ledgerStateQuery, Ev.proofWithdraw a env.executorAddress env.executorAddress,
            Ev.execCalls [env.sdkWithdrawCall], Ev.refreshQuery])) := by
  constructor
  · intro h
    rw [withdrawDonations, if_pos h]
  · intro h
    rw [withdrawDonations, if_neg (by omega)]
    rfl

theorem claim3_withdraw_balance_check_only_witness :
    ((3000000000 : ℤ) < 4000000000
      ∧ withdrawDonations withdrawEnvBig 4000000000
        = (Except.error ("Withdraw operation failed: Insufficient balance: "
            ++ intDecStr withdrawEnvBig.ledgerBalance ++ " < " ++ intDecStr 4000000000),
          [Ev.ledgerStateQuery]))
    ∧ ((2147483648 : ℤ) ≤ 3000000000
      ∧ withdrawDonations withdrawEnvBig 2147483648
        = (Except.ok withdrawEnvBig.txHash,
          [Ev.ledgerStateQuery,
            Ev.proofWithdraw 2147483648 withdrawEnvBig.executorAddress withdrawEnvBig.executorAddress,
            Ev.execCalls [withdrawEnvBig.sdkWithdrawCall], Ev.refreshQuery])) :=
  ⟨⟨by norm_num,
    (claim3_withdraw_balance_check_only withdrawEnvBig 4000000000).1 (by decide)⟩,
   ⟨by norm_num,
    (claim3_withdraw_balance_check_only withdrawEnvBig 2147483648).2 (by decide)⟩⟩

/-- C10: on mainnet (token address equal to the mainnet USDC address), a
fund request of at least `10^15` base units is silently divided by `10^12`
before the exchange-rate conversion — the amount actually converted and
funded differs from the requested one — while smaller amounts, and every
amount on testnet, are passed through unchanged. -/
theorem claim10_mainnet_amount_normalization (env : FundEnv) (a : ℤ) :
    (isMainnetFor env.strkAddress = true → (10 : ℤ) ^ 15 ≤ a →
      (fundDonationAccount env a).2.head? = some (Ev.rateQuery (a / (10 : ℤ) ^ 12))
      ∧ a / (10 : ℤ) ^ 12 ≠ a)
    ∧ (0 < a → (isMainnetFor env.strkAddress = false ∨ a < (10 : ℤ) ^ 15) →
      (fundDonationAccount env a).2.head? = some (Ev.rateQuery a)) := by
  have h15 : (10 : ℤ) ^ 15 = 1000000000000000 := by norm_num
  have h12 : (10 : ℤ) ^ 12 = 1000000000000 := by norm_num
  constructor
  · intro hm hle
    have ha : 0 < a := by omega
    have hnorm : normalizedTokenAmount env.strkAddress a = a / (10 : ℤ) ^ 12 := by
      rw [normalizedTokenAmount, if_pos ⟨hm, hle⟩]
    refine ⟨?_, ?_⟩
    · rw [fund_trace_head env a ha, hnorm]
    · rw [h12]
      rw [h15] at hle
      omega
  · intro ha hcase
    have hnorm : normalizedTokenAmount env.strkAddress a = a := by
      rw [normalizedTokenAmount, if_neg ?hcond]
      case hcond =>
        rcases hcase with hc | hc
        · rintro ⟨hm, -⟩
          rw [hc] at hm
          exact absurd hm (by simp)
        · rintro ⟨-, hle⟩
          omega
    rw [fund_trace_head env a ha, hnorm]

theorem claim10_mainnet_amount_normalization_witness :
    (isMainnetFor fundEnvMainnet.strkAddress = true
      ∧ (10 : ℤ) ^ 15 ≤ 1000000000000000
      ∧ (fundDonationAccount fundEnvMainnet 1000000000000000).2.head?
          = some (Ev.rateQuery (1000000000000000 / (10 : ℤ) ^ 12))
      ∧ (1000000000000000 : ℤ) / (10 : ℤ) ^ 12 ≠ 1000000000000000)
    ∧ ((0 : ℤ) < 5
      ∧ (fundDonationAccount fundEnvMismatch 5).2.head? = some (Ev.rateQuery 5)) :=
  ⟨⟨by decide, by norm_num,
    (claim10_mainnet_amount_normalization fundEnvMainnet 1000000000000000).1
      (by decide) (by norm_num)⟩,
   ⟨by norm_num,
    (claim10_mainnet_amount_normalization fundEnvMismatch 5).2 (by norm_num)
      (Or.inl (by decide))⟩⟩

/-- C4 counterexample: the two boundary failures are not distinguishable in
the error reported to the caller.  For `s = 0` (key `"0x0"`) and for an
out-of-range scalar (key `"0x` + 64 `f`s`"`, which is `≥ N`), the
constructor throws the identical generic invalid-key error; the distinct
"too small" / "out of range" diagnostics exist only as console warnings. -/
theorem claim4_counterexample :
    constructorKeyCheck "0x0" = Except.error CtorErr.invalidKey
    ∧ constructorKeyCheck "0xffffffffffffffffffffffffffffffffffffffffffffffffffffffffffffffff"
      = Except.error CtorErr.invalidKey
    ∧ constructorKeyCheck "0x0"
      = constructorKeyCheck "0xffffffffffffffffffffffffffffffffffffffffffffffffffffffffffffffff" := by
  refine ⟨by decide, by decide, by decide⟩

/-- C4 (amended): identity construction succeeds exactly when
`1 ≤ s < N`; the validator's console warning distinguishes `s = 0`
("too small") from `s ≥ N` ("outside valid range"), but in both cases the
error thrown to the caller is the same generic invalid-key error. -/
theorem claim4_key_range (s : ℕ) :
    (constructorKeyCheck (hexKeyStr s) = Except.ok () ↔ 1 ≤ s ∧ s < starkCurveOrder)
    ∧ (s = 0 → isValidTongoPrivateKey (hexKeyStr s) = KeyCheck.tooSmall)
    ∧ (starkCurveOrder ≤ s → isValidTongoPrivateKey (hexKeyStr s) = KeyCheck.outOfRange)
    ∧ ((s = 0 ∨ starkCurveOrder ≤ s) →
        constructorKeyCheck (hexKeyStr s) = Except.error CtorErr.invalidKey) := by
  have hN := starkCurveOrder_one_lt
  refine ⟨?_, ?_, ?_, ?_⟩
  · rw [constructorKeyCheck_hexKeyStr]
    constructor
    · intro h
      by_cases h1 : s < 1
      · rw [if_pos h1] at h
        exact absurd h (by simp)
      · by_cases h2 : starkCurveOrder ≤ s
        · rw [if_neg h1, if_pos h2] at h
          exact absurd h (by simp)
        · exact ⟨by omega, by omega⟩
    · rintro ⟨hs1, hs2⟩
      rw [if_neg (by omega), if_neg (by omega)]
  · intro h
    subst h
    rw [isValid_hexKeyStr, if_pos (by norm_num)]
  · intro h
    rw [isValid_hexKeyStr, if_neg (by omega), if_pos h]
  · intro h
    rw [constructorKeyCheck_hexKeyStr]
    rcases h with h | h
    · rw [if_pos (by omega)]
    · rw [if_neg (by omega), if_pos h]

theorem claim4_key_range_witness :
    constructorKeyCheck (hexKeyStr 1) = Except.ok ()
    ∧ isValidTongoPrivateKey (hexKeyStr 0) = KeyCheck.tooSmall
    ∧ isValidTongoPrivateKey (hexKeyStr starkCurveOrder) = KeyCheck.outOfRange
    ∧ constructorKeyCheck (hexKeyStr 0) = Except.error CtorErr.invalidKey :=
  ⟨(claim4_key_range 1).1.mpr ⟨le_refl 1, starkCurveOrder_one_lt⟩,
   (claim4_key_range 0).2.1 rfl,
   (claim4_key_range starkCurveOrder).2.2.1 (le_refl _),
   (claim4_key_range 0).2.2.2 (Or.inl rfl)⟩

/-- C5 counterexample: `refreshState` is not atomic over the cached state.
Starting from the cached state `(7, 7, 7)` on testnet, a ledger snapshot
whose balance is `2` but whose pending field cannot be converted raises the
state-refresh error with the current balance already overwritten
(`2 * 10^18`) while the pending balance and nonce keep their old values —
a partial update. -/
theorem claim5_counterexample :
    refreshState strkSepolia ⟨7, 7, JsNum.num 7⟩
      (Except.ok ⟨some (FieldVal.intVal 2), some FieldVal.badVal, some (FieldVal.intVal 9)⟩)
      = (⟨2 * 10 ^ 18, 7, JsNum.num 7⟩,
        some "Failed to refresh account state: Cannot convert value to a BigInt")
    ∧ (⟨2 * 10 ^ 18, 7, JsNum.num 7⟩ : ClientState) ≠ ⟨7, 7, JsNum.num 7⟩ := by
  refine ⟨by decide, by decide⟩

/-- C5 (amended): when the ledger query itself fails, `refreshState` leaves
the cached state entirely unchanged and raises the state-refresh error; but
when a later field of a successfully fetched snapshot is unparseable (here
the pending field, after a valid balance), the error is raised with the
state already partially updated — the balance carries the new snapshot's
value while pending and nonce keep the old ones. -/
theorem claim5_refresh_atomicity :
    (∀ (strkAddress msg : String) (st : ClientState),
      refreshState strkAddress st (Except.error msg)
        = (st, some ("Failed to refresh account state: " ++ msg)))
    ∧ (refreshState strkSepolia ⟨7, 7, JsNum.num 7⟩
        (Except.ok ⟨some (FieldVal.intVal 2), some FieldVal.badVal, some (FieldVal.intVal 9)⟩)).2.isSome
      = true
    ∧ (refreshState strkSepolia ⟨7, 7, JsNum.num 7⟩
        (Except.ok ⟨some (FieldVal.intVal 2), some FieldVal.badVal, some (FieldVal.intVal 9)⟩)).1
      = ⟨2 * 10 ^ 18, 7, JsNum.num 7⟩ := by
  refine ⟨fun strkAddress msg st => rfl, by decide, by decide⟩

/-- A successful refresh stores exactly the scaled field values: the stored
balances are what `balanceFieldValue` computes from the snapshot. -/
theorem refreshState_ok_balances (strkAddress : String) (st st' : ClientState)
    (a : AccountStateResp)
    (h : refreshState strkAddress st (Except.ok a) = (st', none)) :
    balanceFieldValue (tokenDecimals strkAddress) a.balance = some st'.currentBalance
    ∧ balanceFieldValue (tokenDecimals strkAddress) a.pending = some st'.pendingBalance := by
  rcases hb : balanceFieldValue (tokenDecimals strkAddress) a.balance with _ | cb
  · simp only [refreshState, hb] at h
    exact absurd (congrArg Prod.snd h) (by simp)
  · rcases hp : balanceFieldValue (tokenDecimals strkAddress) a.pending with _ | pb
    · simp only [refreshState, hb, hp] at h
      exact absurd (congrArg Prod.snd h) (by simp)
    · simp only [refreshState, hb, hp] at h
      rcases hn : a.nonce with _ | f
      · rw [hn] at h
        simp only [Prod.mk.injEq] at h
        obtain ⟨h1, -⟩ := h
        subst h1
        exact ⟨rfl, rfl⟩
      · rcases f with z | _ | _ <;>
          (rw [hn] at h
           simp only [Prod.mk.injEq] at h
           obtain ⟨h1, -⟩ := h
           subst h1
           exact ⟨rfl, rfl⟩)

/-- C6: after every successful refresh, the cached current balance returned
by `getState` is the ledger-reported balance multiplied by
`10^tokenDecimals` (6 when the token address is mainnet USDC, 18
otherwise), a null or absent ledger balance maps to `0`, and the same holds
for the pending balance. -/
theorem claim6_refresh_scaling (strkAddress : String) (st st' : ClientState)
    (a : AccountStateResp)
    (h : refreshState strkAddress st (Except.ok a) = (st', none)) :
    (∀ z : ℤ, a.balance = some (FieldVal.intVal z) →
      (getState st').currentBalance = z * (10 : ℤ) ^ tokenDecimals strkAddress)
    ∧ ((a.balance = some FieldVal.nullVal ∨ a.balance = none) →
      (getState st').currentBalance = 0)
    ∧ (∀ z : ℤ, a.pending = some (FieldVal.intVal z) →
      (getState st').pendingBalance = z * (10 : ℤ) ^ tokenDecimals strkAddress)
    ∧ ((a.pending = some FieldVal.nullVal ∨ a.pending = none) →
      (getState st').pendingBalance = 0)
    ∧ (isMainnetFor strkAddress = true → tokenDecimals strkAddress = 6)
    ∧ (isMainnetFor strkAddress = false → tokenDecimals strkAddress = 18) := by
  obtain ⟨hbal, hpend⟩ := refreshState_ok_balances strkAddress st st' a h
  refine ⟨?_, ?_, ?_, ?_, ?_, ?_⟩
  · intro z hz
    rw [hz] at hbal
    simp only [balanceFieldValue, Option.some.injEq] at hbal
    exact hbal.symm
  · intro hz
    rcases hz with hz | hz <;>
      (rw [hz] at hbal
       simp only [balanceFieldValue, Option.some.injEq] at hbal
       exact hbal.symm)
  · intro z hz
    rw [hz] at hpend
    simp only [balanceFieldValue, Option.some.injEq] at hpend
    exact hpend.symm
  · intro hz
    rcases hz with hz | hz <;>
      (rw [hz] at hpend
       simp only [balanceFieldValue, Option.some.injEq] at hpend
       exact hpend.symm)
  · intro hm
    rw [tokenDecimals, if_pos hm]
  · intro hm
    rw [tokenDecimals, if_neg (by simp [hm])]

theorem claim6_refresh_scaling_witness :
    (getState (⟨3 * 10 ^ 6, 0, JsNum.num 1⟩ : ClientState)).currentBalance
      = 3 * (10 : ℤ) ^ tokenDecimals usdcMainnet
    ∧ (getState (⟨3 * 10 ^ 6, 0, JsNum.num 1⟩ : ClientState)).pendingBalance = 0 :=
  ⟨(claim6_refresh_scaling usdcMainnet ⟨1, 1, JsNum.num 1⟩ ⟨3 * 10 ^ 6, 0, JsNum.num 1⟩
      ⟨some (FieldVal.intVal 3), some FieldVal.nullVal, none⟩ (by decide)).1 3 rfl,
   (claim6_refresh_scaling usdcMainnet ⟨1, 1, JsNum.num 1⟩ ⟨3 * 10 ^ 6, 0, JsNum.num 1⟩
      ⟨some (FieldVal.intVal 3), some FieldVal.nullVal, none⟩ (by decide)).2.2.2.1
      (Or.inl rfl)⟩

/-- C7: the calldata repair step is idempotent.  For every approve call
whose first calldata slot decodes (and a contract address that `BigInt`
accepts, as the stored padded address always does), applying the repair
twice yields the same call as applying it once: the patched slot is the
decimal string of the contract address, which re-decodes to the same value
and re-renders to the canonical form the comparison expects. -/
theorem claim7_repair_idempotent (addr : String) (a : ℕ) (c : CallModel)
    (haddr : parseFelt addr = some a) :
    repairApprove addr (repairApprove addr c) = repairApprove addr c := by
  rcases c with ⟨ca, ep, cd⟩
  rcases cd with _ | ⟨s0, rest⟩
  · rfl
  · rcases hp : parseFelt s0 with _ | n
    · have hid : repairApprove addr ⟨ca, ep, s0 :: rest⟩ = ⟨ca, ep, s0 :: rest⟩ := by
        simp only [repairApprove, hp]
      rw [hid, hid]
    · by_cases hm : lowerS (hex64 n) = lowerS addr
      · have hid : repairApprove addr ⟨ca, ep, s0 :: rest⟩ = ⟨ca, ep, s0 :: rest⟩ := by
          simp only [repairApprove, hp, if_pos hm]
        rw [hid, hid]
      · have hfix : repairApprove addr ⟨ca, ep, s0 :: rest⟩
            = ⟨ca, ep, decString a :: rest⟩ := by
          simp only [repairApprove, hp, if_neg hm, haddr, Option.getD_some]
        rw [hfix]
        by_cases hm2 : lowerS (hex64 a) = lowerS addr
        · simp only [repairApprove, parseFelt_decString, if_pos hm2]
        · simp only [repairApprove, parseFelt_decString, if_neg hm2, haddr, Option.getD_some]

theorem claim7_repair_idempotent_witness :
    parseFelt tongoPadded = some ((parseFelt tongoPadded).getD 0)
    ∧ repairApprove tongoPadded
        (repairApprove tongoPadded ⟨strkSepolia, "approve", ["12345", "5", "0"]⟩)
      = repairApprove tongoPadded ⟨strkSepolia, "approve", ["12345", "5", "0"]⟩ :=
  ⟨by decide,
   claim7_repair_idempotent tongoPadded ((parseFelt tongoPadded).getD 0)
     ⟨strkSepolia, "approve", ["12345", "5", "0"]⟩ (by decide)⟩

/-- C8 counterexample: `padAddress` does not fail on empty input — it
returns the empty string unchanged — and therefore its output is not always
66 characters. -/
theorem claim8_counterexample :
    padAddress "" = "" ∧ (padAddress "").length = 0 ∧ (0 : ℕ) ≠ 66 := by
  refine ⟨rfl, rfl, by norm_num⟩

/-- C8 (amended): `padAddress` is idempotent and total over all strings; on
empty input it returns the input unchanged without any error; and its
output has exactly 66 characters whenever the input is nonempty and its
payload (the part after `0x` when that marker is present, the whole string
otherwise) is at most 64 characters — longer payloads pass through
unpadded, giving outputs longer than 66. -/
theorem claim8_padAddress_props :
    (∀ s : String, padAddress (padAddress s) = padAddress s)
    ∧ (∀ s : String, s.data ≠ [] →
        (if startsWith0x s.data then s.data.length - 2 else s.data.length) ≤ 64 →
        (padAddress s).length = 66) := by
  constructor
  · intro s
    show String.mk (padAddressL (String.mk (padAddressL s.data)).data) = _
    rw [data_mk, padAddressL_idem]
    rfl
  · intro s hne hp
    show (padAddressL s.data).length = 66
    exact padAddressL_length s.data hne hp

theorem claim8_padAddress_props_witness :
    padAddress (padAddress "0xABC") = padAddress "0xABC"
    ∧ ("0x1" : String).data ≠ []
    ∧ (padAddress "0x1").length = 66 :=
  ⟨claim8_padAddress_props.1 "0xABC", by decide,
   claim8_padAddress_props.2 "0x1" (by decide) (by decide)⟩

theorem dropWhile_eq_self_of_all {p : Char → Bool} (l : List Char)
    (h : ∀ c ∈ l, p c = false) : l.dropWhile p = l := by
  cases l with
  | nil => rfl
  | cons a t =>
    rw [List.dropWhile_cons, if_neg (by simp [h a (List.mem_cons_self a t)])]

theorem trimL_eq_self (l : List Char) (h : ∀ c ∈ l, isWsChar c = false) :
    trimL l = l := by
  rw [trimL, dropWhile_eq_self_of_all l h,
    dropWhile_eq_self_of_all l.reverse (fun c hc => h c (List.mem_reverse.mp hc)),
    List.reverse_reverse]

theorem isWsChar_false_of_isHexDigit {c : Char} (h : isHexDigit c = true) :
    isWsChar c = false := by
  simp only [isHexDigit, decide_eq_true_eq] at h
  simp only [isWsChar, decide_eq_false_iff_not]
  omega

theorem parseFeltL_hex_of_digits (m : List Char) (hne : m ≠ [])
    (hhex : ∀ c ∈ m, isHexDigit c = true) :
    parseFeltL ('0' :: 'x' :: m) = some (ofHexLE m.reverse) := by
  rw [parseFeltL, if_pos (startsWith0x_cons _)]
  simp only [List.drop_succ_cons, List.drop_zero]
  rw [if_pos ⟨hne, List.all_eq_true.mpr hhex⟩]

/-- Reduction of `parsePublicKey` on a `0x`-prefixed all-hex payload:
trimming is the identity, and evaluation proceeds by payload length. -/
theorem parsePublicKey_hexPayload (l : List Char)
    (hhex : ∀ c ∈ l, isHexDigit c = true) :
    parsePublicKey (String.mk ('0' :: 'x' :: l))
      = (if l.length = 128 then
          match parseFeltL ('0' :: 'x' :: l.take 64), parseFeltL ('0' :: 'x' :: l.drop 64) with
          | some x, some y => PubKeyParse.coords x y
          | _, _ => PubKeyParse.err (pubKeyWrapMsg "Cannot convert value to a BigInt")
        else if l.length = 66 then PubKeyParse.err (pubKeyWrapMsg compressedPointCause)
        else if l.length = 64 then PubKeyParse.err (pubKeyWrapMsg incompleteKeyCause)
        else PubKeyParse.err ("Invalid hex format. Expected 128 hex chars (64 bytes each for x and y) "
          ++ "or base58 TongoAddress format. Got " ++ decString l.length ++ " hex chars.")) := by
  have hws : ∀ c ∈ ('0' :: 'x' :: l), isWsChar c = false := by
    intro c hc
    rcases List.mem_cons.mp hc with rfl | hc
    · decide
    rcases List.mem_cons.mp hc with rfl | hc
    · decide
    · exact isWsChar_false_of_isHexDigit (hhex c hc)
  rw [parsePublicKey]
  simp only [data_mk, trimL_eq_self _ hws, startsWith0x_cons, if_true,
    List.drop_succ_cons, List.drop_zero]

def upperPubKey : String := String.mk ('0' :: 'x' :: (List.replicate 127 '0' ++ ['A']))

set_option maxRecDepth 10000 in
/-- C9 counterexample: re-encoding does not reproduce every 128-hex-char
key.  The key `0x` + 127 `0`s + `A` (upper case) parses to the coordinates
`(0, 10)`, but the constructor's re-encoding renders them in lower case, so
the round trip produces a different string than the original.  The claimed
round trip holds only for lower-case inputs. -/
theorem claim9_counterexample :
    parsePublicKey upperPubKey = PubKeyParse.coords 0 10
    ∧ encodePubKey 0 10 ≠ upperPubKey := by
  refine ⟨by decide, by decide⟩

/-- C9 (amended): a recipient key of `0x` + 128 lower-case hex characters
parses into `(x, y)` drawn from the two 64-digit halves, and re-encoding
`(x, y)` as `0x` + two 64-padded hex halves reproduces the original string
exactly (for mixed-case inputs the re-encoding instead produces the
lower-case form).  Post-prefix hex payloads of length 66 and 64 fail with
the two distinct descriptive errors (compressed-point and incomplete-key,
re-wrapped by the catch with the "Failed to parse public key" prefix that
preserves the cause text), which differ from each other and from the
generic conversion-failure message. -/
theorem claim9_pubkey_parsing (l : List Char) :
    (l.length = 128 → (∀ c ∈ l, isLowerHexDigit c = true) →
      parsePublicKey (String.mk ('0' :: 'x' :: l))
          = PubKeyParse.coords (ofHexLE (l.take 64).reverse) (ofHexLE (l.drop 64).reverse)
        ∧ encodePubKey (ofHexLE (l.take 64).reverse) (ofHexLE (l.drop 64).reverse)
          = String.mk ('0' :: 'x' :: l))
    ∧ (l.length = 66 → (∀ c ∈ l, isHexDigit c = true) →
      parsePublicKey (String.mk ('0' :: 'x' :: l))
        = PubKeyParse.err (pubKeyWrapMsg compressedPointCause))
    ∧ (l.length = 64 → (∀ c ∈ l, isHexDigit c = true) →
      parsePublicKey (String.mk ('0' :: 'x' :: l))
        = PubKeyParse.err (pubKeyWrapMsg incompleteKeyCause))
    ∧ pubKeyWrapMsg compressedPointCause ≠ pubKeyWrapMsg incompleteKeyCause
    ∧ pubKeyWrapMsg compressedPointCause ≠ pubKeyWrapMsg "Cannot convert value to a BigInt"
    ∧ pubKeyWrapMsg incompleteKeyCause ≠ pubKeyWrapMsg "Cannot convert value to a BigInt" := by
  refine ⟨?_, ?_, ?_, by decide, by decide, by decide⟩
  · intro hlen hlow
    have hhex : ∀ c ∈ l, isHexDigit c = true :=
      fun c hc => isHexDigit_of_isLowerHexDigit (hlow c hc)
    have htake : (l.take 64).length = 64 := by
      rw [List.length_take, hlen]
      norm_num
    have hdrop : (l.drop 64).length = 64 := by
      rw [List.length_drop, hlen]
    have htne : l.take 64 ≠ [] := by
      intro hc
      rw [hc] at htake
      simp at htake
    have hdne : l.drop 64 ≠ [] := by
      intro hc
      rw [hc] at hdrop
      simp at hdrop
    have hx := parseFeltL_hex_of_digits (l.take 64) htne
      (fun c hc => hhex c (List.take_subset _ _ hc))
    have hy := parseFeltL_hex_of_digits (l.drop 64) hdne
      (fun c hc => hhex c (List.drop_subset _ _ hc))
    constructor
    · rw [parsePublicKey_hexPayload l hhex, if_pos hlen, hx, hy]
    · rw [encodePubKey,
        padStartL_toHexStrL_ofHex (l.take 64) 64 (by norm_num) htake
          (fun c hc => hlow c (List.take_subset _ _ hc)),
        padStartL_toHexStrL_ofHex (l.drop 64) 64 (by norm_num) hdrop
          (fun c hc => hlow c (List.drop_subset _ _ hc)),
        List.take_append_drop]
  · intro hlen hhex
    rw [parsePublicKey_hexPayload l hhex, if_neg (by omega), if_pos hlen]
  · intro hlen hhex
    rw [parsePublicKey_hexPayload l hhex, if_neg (by omega), if_neg (by omega), if_pos hlen]

def lowerPubKeyPayload : List Char := List.replicate 127 '0' ++ ['a']

set_option maxRecDepth 10000 in
theorem claim9_pubkey_parsing_witness :
    (parsePublicKey (String.mk ('0' :: 'x' :: lowerPubKeyPayload))
        = PubKeyParse.coords (ofHexLE (lowerPubKeyPayload.take 64).reverse)
            (ofHexLE (lowerPubKeyPayload.drop 64).reverse)
      ∧ encodePubKey (ofHexLE (lowerPubKeyPayload.take 64).reverse)
            (ofHexLE (lowerPubKeyPayload.drop 64).reverse)
          = String.mk ('0' :: 'x' :: lowerPubKeyPayload))
    ∧ parsePublicKey (String.mk ('0' :: 'x' :: List.replicate 66 '1'))
        = PubKeyParse.err (pubKeyWrapMsg compressedPointCause)
    ∧ parsePublicKey (String.mk ('0' :: 'x' :: List.replicate 64 '1'))
        = PubKeyParse.err (pubKeyWrapMsg incompleteKeyCause) :=
  ⟨(claim9_pubkey_parsing lowerPubKeyPayload).1 (by decide) (by decide),
   (claim9_pubkey_parsing (List.replicate 66 '1')).2.1 (by decide) (by decide),
   (claim9_pubkey_parsing (List.replicate 64 '1')).2.2.1 (by decide) (by decide)⟩

end Tongo
